import Mathlib

/-!
Verification of the derived-view computation logic of the Titanic dashboard
script (streamlit_duckdb.py). The SQL queries issued against the in-memory
relation are embedded as pure functions over a list of rows; the app-level
control flow around data-source selection and upload ingestion is embedded
as a small step function. All counts, sums and rates use exact arithmetic
(Nat, Int, ℚ), with SQL NULL modelled by Option where the engine can return
NULL (the SUM aggregate over an empty relation, the nullable Age column).
-/

namespace Titanic

/-- A row of the `titanic` relation, restricted to the columns the queries
read. `Age` is nullable; `Survived` is an integer column (0/1 in well-formed
data); `Pclass` is an integer class label. -/
structure Row where
  sex : String
  age : Option ℚ
  pclass : Int
  survived : Int
deriving DecidableEq

/-- The CASE expression shared by the age views (lines 101-112, 203-214 and
233-244 of the script). SQL evaluates the WHEN branches in order; when `Age`
is NULL every comparison `Age < k` evaluates to NULL (hence not taken), so a
NULL age falls through to the `Age IS NULL` branch yielding `'Inconnu'`; a
non-null age never reaches that branch and lands in a numeric bucket, with
`'80+'` as the ELSE. -/
def groupe_age : Option ℚ → String
  | none => "Inconnu"
  | some a =>
    if a < 10 then "0-9"
    else if a < 20 then "10-19"
    else if a < 30 then "20-29"
    else if a < 40 then "30-39"
    else if a < 50 then "40-49"
    else if a < 60 then "50-59"
    else if a < 70 then "60-69"
    else if a < 80 then "70-79"
    else "80+"

/-- Lexicographic comparison of character lists: the binary collation DuckDB
uses for ORDER BY over strings (codepoint order; all labels here are ASCII,
where codepoint and byte order agree). -/
def charListLt : List Char → List Char → Bool
  | [], [] => false
  | [], _ :: _ => true
  | _ :: _, [] => false
  | a :: as, b :: bs => if a < b then true else if b < a then false else charListLt as bs

/-- Reflexive closure of the lexicographic comparison. -/
def charListLe : List Char → List Char → Bool
  | [], _ => true
  | _ :: _, [] => false
  | a :: as, b :: bs => if a < b then true else if b < a then false else charListLe as bs

/-- Strict ORDER BY comparison on strings. -/
def strLt (a b : String) : Bool := charListLt a.data b.data

/-- Non-strict ORDER BY comparison on strings. -/
def strLe (a b : String) : Bool := charListLe a.data b.data

/-- ROUND(x, 2): round to the nearest hundredth (ties away from zero for the
nonnegative inputs produced here, matching `round`, which rounds half up). -/
def round2 (q : ℚ) : ℚ := (round (q * 100) : ℤ) / 100

/-- SUM(Survived) over a group of rows (the non-NULL, nonempty case). -/
def sumSurvived (g : List Row) : Int := (g.map (fun r => r.survived)).sum

/-- SUM(CASE WHEN Survived = 1 THEN 1 ELSE 0 END) over a group. -/
def nbSurvivants (g : List Row) : Nat := g.countP (fun r => decide (r.survived = 1))

/-- SUM(CASE WHEN Survived = 0 THEN 1 ELSE 0 END) over a group. -/
def nbDeces (g : List Row) : Nat := g.countP (fun r => decide (r.survived = 0))

/-- ROUND(SUM(Survived) * 100.0 / COUNT(*), 2) over a (nonempty) group. -/
def taux (g : List Row) : ℚ := round2 ((sumSurvived g : ℚ) * 100 / (g.length : ℚ))

/-- GROUP BY: the distinct values taken by a key expression, in order of first
appearance (views with an ORDER BY sort these keys below). -/
def groupKeys {κ : Type} [DecidableEq κ] (key : Row → κ) (t : List Row) : List κ :=
  (t.map key).dedup

/-- The group of rows of `t` whose key expression evaluates to `k`. -/
def groupOf {κ : Type} [DecidableEq κ] (key : Row → κ) (t : List Row) (k : κ) : List Row :=
  t.filter (fun r => decide (key r = k))

/-- Result row of the `stats_generales` query (lines 69-75). On the empty
relation COUNT(*) is 0 but SUM(Survived), and hence the rounded rate, are
NULL. -/
structure GlobalStats where
  total_passagers : Nat
  total_survivants : Option Int
  pourcentage_survie : Option ℚ
deriving DecidableEq

/-- The global statistics view (lines 69-75). -/
def stats_generales (t : List Row) : GlobalStats :=
  ⟨t.length,
   if t.isEmpty then none else some (sumSurvived t),
   if t.isEmpty then none else some (taux t)⟩

/-- Result row of the `survivants_par_sexe` query (lines 86-95). -/
structure SexRow where
  sex : String
  nombre_survivants : Nat
  nombre_deces : Nat
  total : Nat
deriving DecidableEq

/-- The by-sex view (lines 86-95): GROUP BY Sex, ORDER BY Sex. -/
def survivants_par_sexe (t : List Row) : List SexRow :=
  (List.insertionSort (fun a b => strLe a b = true) (groupKeys (fun r => r.sex) t)).map
    (fun s =>
      let g := groupOf (fun r => r.sex) t s
      ⟨s, nbSurvivants g, nbDeces g, g.length⟩)

/-- Result row of the `survivants_par_age` query (lines 99-119). -/
structure AgeRow where
  groupe_age : String
  nombre_survivants : Nat
  nombre_deces : Nat
  total : Nat
deriving DecidableEq

/-- The bucket-label key expression applied to a row. -/
def ageKey (r : Row) : String := groupe_age r.age

/-- The by-age-bucket view (lines 99-119): GROUP BY groupe_age, ORDER BY
groupe_age, where the ORDER BY compares the bucket label strings. -/
def survivants_par_age (t : List Row) : List AgeRow :=
  (List.insertionSort (fun a b => strLe a b = true) (groupKeys ageKey t)).map
    (fun b =>
      let g := groupOf ageKey t b
      ⟨b, nbSurvivants g, nbDeces g, g.length⟩)

/-- The chart data for the by-age view (line 170): the by-age rows with the
`'Inconnu'` bucket removed. -/
def survivants_par_age_filtre (t : List Row) : List AgeRow :=
  (survivants_par_age t).filter (fun row => decide (row.groupe_age ≠ "Inconnu"))

/-- Result row of the `taux_survie_sexe` query (lines 154-160). -/
structure TauxSexeRow where
  sex : String
  taux_survie : ℚ
deriving DecidableEq

/-- The rate-by-sex view (lines 154-160): GROUP BY Sex, no ORDER BY. -/
def taux_survie_sexe (t : List Row) : List TauxSexeRow :=
  (groupKeys (fun r => r.sex) t).map
    (fun s => ⟨s, taux (groupOf (fun r => r.sex) t s)⟩)

/-- Result row of the `taux_survie_age` query (lines 201-220). -/
structure TauxAgeRow where
  groupe_age : String
  taux_survie : ℚ
deriving DecidableEq

/-- The rate-by-age-bucket view (lines 201-220): WHERE Age IS NOT NULL,
GROUP BY groupe_age, ORDER BY groupe_age. -/
def taux_survie_age (t : List Row) : List TauxAgeRow :=
  let tnn := t.filter (fun r => r.age.isSome)
  (List.insertionSort (fun a b => strLe a b = true) (groupKeys ageKey tnn)).map
    (fun b => ⟨b, taux (groupOf ageKey tnn b)⟩)

/-- Result row of the `survivants_sexe_age` query (lines 230-250). -/
structure SexeAgeRow where
  sex : String
  groupe_age : String
  taux_survie : ℚ
  total : Nat
deriving DecidableEq

/-- The (Sex, bucket) key expression of the cross-tab query. -/
def sexeAgeKey (r : Row) : String × String := (r.sex, groupe_age r.age)

/-- The cross-tab view (lines 230-250): GROUP BY Sex, groupe_age and
ORDER BY Sex, groupe_age (lexicographic on the pair of strings). -/
def survivants_sexe_age (t : List Row) : List SexeAgeRow :=
  (List.insertionSort
      (fun a b => strLt a.1 b.1 = true ∨ (a.1 = b.1 ∧ strLe a.2 b.2 = true))
      (groupKeys sexeAgeKey t)).map
    (fun k =>
      let g := groupOf sexeAgeKey t k
      ⟨k.1, k.2, taux g, g.length⟩)

/-- The heatmap data (line 253): cross-tab rows with `'Inconnu'` removed. -/
def survivants_sexe_age_filtre (t : List Row) : List SexeAgeRow :=
  (survivants_sexe_age t).filter (fun row => decide (row.groupe_age ≠ "Inconnu"))

/-- Result row of the `stats_classe` query (lines 278-287). -/
structure ClasseRow where
  classe : Int
  total_passagers : Nat
  total_survivants : Int
  pourcentage_survie : ℚ
deriving DecidableEq

/-- The by-class view (lines 278-287): GROUP BY Pclass, ORDER BY classe. -/
def stats_classe (t : List Row) : List ClasseRow :=
  (List.insertionSort (fun a b => a ≤ b) (groupKeys (fun r => r.pclass) t)).map
    (fun c =>
      let g := groupOf (fun r => r.pclass) t c
      ⟨c, g.length, sumSurvived g, taux g⟩)

/-- The error raised by the embedded engine when the ingestion query
(`CREATE TABLE ... read_csv_auto`) fails. -/
inductive IngestError
  | queryFailed
deriving DecidableEq

/-- The upload-ingestion block (lines 44-56). A temporary file is created
with delete=False and the uploaded bytes written to it; the CREATE TABLE
query over that file may raise; `os.unlink` runs only after the query and the
reload succeed. The second component records whether the temporary file has
been deleted when control leaves the block: on the error path the exception
propagates before `os.unlink`, so the file is left behind. -/
def uploadIngest (readCsv : String → Except IngestError (List Row)) (f : String) :
    Except IngestError (List Row) × Bool :=
  match readCsv f with
  | .error e => (.error e, false)
  | .ok rows => (.ok rows, true)

/-- The five-plus derived relations computed on a render (spec section 9
calls this computeViews). -/
structure Views where
  global : GlobalStats
  parSexe : List SexRow
  parAge : List AgeRow
  tauxSexe : List TauxSexeRow
  tauxAge : List TauxAgeRow
  croise : List SexeAgeRow
  parClasse : List ClasseRow

/-- All derived views of one render cycle, computed from the raw relation. -/
def computeViews (t : List Row) : Views :=
  ⟨stats_generales t, survivants_par_sexe t, survivants_par_age t,
   taux_survie_sexe t, taux_survie_age t, survivants_sexe_age t, stats_classe t⟩

/-- The sidebar data-source choice (lines 24-27): demo data, or upload mode
with an optional uploaded file. -/
inductive SourceChoice
  | demo
  | upload (f : Option String)

/-- Outcome of one render cycle: halted cleanly by st.stop after an info
message, aborted by a propagating ingestion error (recording whether the
temporary file was deleted), or a full page of derived views. -/
inductive RenderResult
  | stopped (info : String)
  | failed (e : IngestError) (tempDeleted : Bool)
  | page (v : Views)

/-- The st.info message of line 58. -/
def msgNoFile : String :=
  "Veuillez télécharger un fichier CSV ou utiliser les données de démonstration."

/-- The data-source dispatch of lines 33-59 followed by the view pipeline:
demo mode loads the demo relation and renders; upload mode with a file runs
the ingestion block and renders on success; upload mode without a file shows
an info message and stops before any view is computed. -/
def runApp (demoData : List Row) (readCsv : String → Except IngestError (List Row)) :
    SourceChoice → RenderResult
  | .demo => .page (computeViews demoData)
  | .upload none => .stopped msgNoFile
  | .upload (some f) =>
    match uploadIngest readCsv f with
    | (.error e, del) => .failed e del
    | (.ok rows, _) => .page (computeViews rows)

/-- The derived views a render outcome carries, if any. -/
def viewsOf : RenderResult → Option Views
  | .page v => some v
  | _ => none

/-- The ten bucket labels the CASE expression can produce, listed in the
canonical order: numeric lower bound ascending, `'Inconnu'` last. -/
def allBucketLabels : List String :=
  ["0-9", "10-19", "20-29", "30-39", "40-49", "50-59", "60-69", "70-79", "80+", "Inconnu"]

/-- Canonical rank of a bucket label: position in `allBucketLabels`
(numeric lower bound ascending, `'Inconnu'` last). -/
def bucketRank (l : String) : Nat := allBucketLabels.indexOf l

/-- The three-row example relation of spec section 8. -/
def exTable : List Row :=
  [⟨"male", some 5, 3, 1⟩, ⟨"male", some 45, 3, 0⟩, ⟨"female", some 22, 1, 1⟩]

/-! ### Helper lemmas -/

/-- A non-null age always lands in a numeric bucket, never in `'Inconnu'`. -/
theorem groupe_age_some_ne_inconnu (a : ℚ) : groupe_age (some a) ≠ "Inconnu" := by
  simp only [groupe_age]
  split_ifs <;> decide

/-- Every value of the bucketing expression is one of the ten labels. -/
theorem groupe_age_mem_labels (oa : Option ℚ) : groupe_age oa ∈ allBucketLabels := by
  cases oa with
  | none => decide
  | some a =>
    simp only [groupe_age]
    split_ifs <;> decide

/-- For rows whose Survived column is 0/1, the two CASE counts add up to the
group size. -/
theorem nbSurvivants_add_nbDeces (g : List Row)
    (h : ∀ r ∈ g, r.survived = 0 ∨ r.survived = 1) :
    nbSurvivants g + nbDeces g = g.length := by
  induction g with
  | nil => rfl
  | cons r g ih =>
    have ih2 := ih (fun x hx => h x (List.mem_cons_of_mem r hx))
    unfold nbSurvivants nbDeces at ih2 ⊢
    rcases h r (by simp) with hr | hr <;>
      simp [List.countP_cons, hr] <;> try omega

/-- For rows whose Survived column is 0/1, SUM(Survived) equals the CASE
count of survivors. -/
theorem sumSurvived_eq_nbSurvivants (g : List Row)
    (h : ∀ r ∈ g, r.survived = 0 ∨ r.survived = 1) :
    sumSurvived g = (nbSurvivants g : Int) := by
  induction g with
  | nil => rfl
  | cons r g ih =>
    have ih2 := ih (fun x hx => h x (List.mem_cons_of_mem r hx))
    unfold sumSurvived nbSurvivants at ih2 ⊢
    rcases h r (by simp) with hr | hr <;>
      simp [List.countP_cons, hr, ih2] <;> try omega

/-- Splitting a mapped sum along a Boolean filter. -/
theorem sum_map_filter_split {M : Type} [AddCommMonoid M] (f : Row → M) (p : Row → Bool) :
    ∀ t : List Row,
      ((t.filter p).map f).sum + ((t.filter (fun r => !(p r))).map f).sum = (t.map f).sum := by
  intro t
  induction t with
  | nil => simp
  | cons r t ih =>
    cases hp : p r <;>
      simp only [List.filter_cons, hp, Bool.not_true, Bool.not_false, if_pos, if_neg,
        Bool.false_eq_true, not_false_eq_true, List.map_cons, List.sum_cons, cond_true,
        cond_false] <;>
      rw [← ih] <;> abel

/-- Summing a mapped quantity group by group, over a duplicate-free list of
keys covering every row, gives the sum over the whole relation. -/
theorem sum_over_groups {κ M : Type} [DecidableEq κ] [AddCommMonoid M]
    (key : Row → κ) (f : Row → M) :
    ∀ ks : List κ, ks.Nodup → ∀ t : List Row, (∀ r ∈ t, key r ∈ ks) →
      (ks.map (fun k => ((groupOf key t k).map f).sum)).sum = (t.map f).sum := by
  intro ks
  induction ks with
  | nil =>
    intro _ t ht
    cases t with
    | nil => simp
    | cons r t => exact absurd (ht r (by simp)) (by simp)
  | cons k ks ih =>
    intro hnd t ht
    have hk : k ∉ ks := (List.nodup_cons.mp hnd).1
    have hnd2 : ks.Nodup := (List.nodup_cons.mp hnd).2
    have hfib : ∀ k2 ∈ ks,
        groupOf key t k2 = groupOf key (t.filter (fun r => !(decide (key r = k)))) k2 := by
      intro k2 hk2
      have hne : k2 ≠ k := by
        rintro rfl
        exact hk hk2
      unfold groupOf
      rw [List.filter_filter]
      apply List.filter_congr
      intro r _
      by_cases hr : key r = k2
      · have : key r ≠ k := by
          rw [hr]
          exact hne
        simp [hr, hne]
      · simp [hr]
    have hcover : ∀ r ∈ t.filter (fun r => !(decide (key r = k))), key r ∈ ks := by
      intro r hr
      have h1 := List.mem_filter.mp hr
      have h2 : key r ≠ k := by
        have := h1.2
        simpa using this
      rcases List.mem_cons.mp (ht r h1.1) with h | h
      · exact absurd h h2
      · exact h
    have ihx := ih hnd2 (t.filter (fun r => !(decide (key r = k)))) hcover
    have hmaps :
        (ks.map (fun k2 => ((groupOf key t k2).map f).sum)).sum
          = (ks.map (fun k2 =>
              ((groupOf key (t.filter (fun r => !(decide (key r = k)))) k2).map f).sum)).sum := by
      congr 1
      apply List.map_congr_left
      intro k2 hk2
      rw [hfib k2 hk2]
    rw [List.map_cons, List.sum_cons, hmaps, ihx]
    exact sum_map_filter_split f (fun r => decide (key r = k)) t

/-- A mapped sum of ones counts the length. -/
theorem sum_map_one (g : List Row) : (g.map (fun _ => (1 : Nat))).sum = g.length := by
  induction g with
  | nil => rfl
  | cons r g ih => simp [ih, Nat.add_comm]

/-- A mapped sum of indicator values counts the predicate. -/
theorem sum_map_indicator (p : Row → Bool) (g : List Row) :
    (g.map (fun r => if p r then (1 : Nat) else 0)).sum = g.countP p := by
  induction g with
  | nil => rfl
  | cons r g ih =>
    cases hp : p r <;> simp [List.countP_cons, hp, ih, Nat.add_comm]

/-- Group sizes over a duplicate-free covering key list add up to the size of
the relation. -/
theorem sum_group_lengths {κ : Type} [DecidableEq κ]
    (key : Row → κ) (ks : List κ) (hnd : ks.Nodup) (t : List Row)
    (ht : ∀ r ∈ t, key r ∈ ks) :
    (ks.map (fun k => (groupOf key t k).length)).sum = t.length := by
  have h := sum_over_groups key (fun _ => (1 : Nat)) ks hnd t ht
  rw [sum_map_one] at h
  rw [← h]
  congr 1
  apply List.map_congr_left
  intro k _
  rw [sum_map_one]

/-- Group counts of a predicate over a duplicate-free covering key list add
up to the count over the relation. -/
theorem sum_group_countP {κ : Type} [DecidableEq κ]
    (key : Row → κ) (p : Row → Bool) (ks : List κ) (hnd : ks.Nodup) (t : List Row)
    (ht : ∀ r ∈ t, key r ∈ ks) :
    (ks.map (fun k => (groupOf key t k).countP p)).sum = t.countP p := by
  have h := sum_over_groups key (fun r => if p r then (1 : Nat) else 0) ks hnd t ht
  rw [sum_map_indicator] at h
  rw [← h]
  congr 1
  apply List.map_congr_left
  intro k _
  rw [sum_map_indicator]

/-- The sorted key list of a view is duplicate-free. -/
theorem nodup_sortedKeys {κ : Type} [DecidableEq κ] (le : κ → κ → Prop) [DecidableRel le]
    (key : Row → κ) (t : List Row) :
    (List.insertionSort le (groupKeys key t)).Nodup :=
  (List.perm_insertionSort le (groupKeys key t)).nodup_iff.mpr
    (List.nodup_dedup (t.map key))

/-- The sorted key list of a view contains the key of every row. -/
theorem mem_sortedKeys {κ : Type} [DecidableEq κ] (le : κ → κ → Prop) [DecidableRel le]
    (key : Row → κ) (t : List Row) (r : Row) (hr : r ∈ t) :
    key r ∈ List.insertionSort le (groupKeys key t) := by
  rw [List.mem_insertionSort]
  exact List.mem_dedup.mpr (List.mem_map_of_mem key hr)

/-- Conversely, every key in the sorted key list is the key of some row. -/
theorem of_mem_sortedKeys {κ : Type} [DecidableEq κ] (le : κ → κ → Prop) [DecidableRel le]
    (key : Row → κ) (t : List Row) (k : κ)
    (hk : k ∈ List.insertionSort le (groupKeys key t)) :
    ∃ r ∈ t, key r = k := by
  rw [List.mem_insertionSort] at hk
  exact List.mem_map.mp (List.mem_dedup.mp hk)

/-- The group of a realized key is nonempty. -/
theorem groupOf_ne_nil {κ : Type} [DecidableEq κ]
    (key : Row → κ) (t : List Row) (k : κ) (r : Row) (hr : r ∈ t) (hk : key r = k) :
    groupOf key t k ≠ [] := by
  intro hnil
  have : r ∈ groupOf key t k := List.mem_filter.mpr ⟨hr, by simp [hk]⟩
  rw [hnil] at this
  exact (List.not_mem_nil r) this

/-- Rows of a group are rows of the relation. -/
theorem mem_of_mem_groupOf {κ : Type} [DecidableEq κ]
    (key : Row → κ) (t : List Row) (k : κ) (r : Row) (hr : r ∈ groupOf key t k) :
    r ∈ t :=
  (List.mem_filter.mp hr).1

/-! ### C1: survivors + deaths = total in every grouped view -/

/-- C1. For every raw relation in which every row's Survived value is 0 or 1,
every group row of the by-sex view and of the by-age-bucket view satisfies
survivors + deaths = total, where survivors and deaths are the two CASE sums
and total is COUNT(*). -/
theorem grouped_views_survivors_add_deaths_eq_total (t : List Row)
    (h : ∀ r ∈ t, r.survived = 0 ∨ r.survived = 1) :
    (∀ row ∈ survivants_par_sexe t,
      row.nombre_survivants + row.nombre_deces = row.total)
    ∧ (∀ row ∈ survivants_par_age t,
      row.nombre_survivants + row.nombre_deces = row.total) := by
  constructor
  · intro row hrow
    obtain ⟨s, _, rfl⟩ := List.mem_map.mp hrow
    exact nbSurvivants_add_nbDeces (groupOf (fun r => r.sex) t s)
      (fun r hr => h r (mem_of_mem_groupOf _ t s r hr))
  · intro row hrow
    obtain ⟨b, _, rfl⟩ := List.mem_map.mp hrow
    exact nbSurvivants_add_nbDeces (groupOf ageKey t b)
      (fun r hr => h r (mem_of_mem_groupOf _ t b r hr))

/-- Witness for C1: the female group row of the by-sex view at the example
relation of spec section 8. -/
theorem grouped_views_survivors_add_deaths_eq_total_witness :
    (⟨"female", 1, 0, 1⟩ : SexRow).nombre_survivants
      + (⟨"female", 1, 0, 1⟩ : SexRow).nombre_deces
      = (⟨"female", 1, 0, 1⟩ : SexRow).total := by
  have hv : survivants_par_sexe exTable
      = [⟨"female", 1, 0, 1⟩, ⟨"male", 1, 1, 2⟩] := by decide
  exact (grouped_views_survivors_add_deaths_eq_total exTable (by decide)).1
    ⟨"female", 1, 0, 1⟩ (hv ▸ List.mem_cons_self _ _)

/-! ### C10: negative ages are absorbed into the lowest bucket -/

/-- C10. The CASE expression has no lower guard on its first branch: any
negative age is assigned the bucket 0-9 rather than being rejected or sent
to the unknown bucket. -/
theorem negative_age_lands_in_lowest_bucket (a : ℚ) (ha : a < 0) :
    groupe_age (some a) = "0-9" := by
  simp only [groupe_age]
  rw [if_pos (by linarith)]

/-- Witness for C10 at age -1. -/
theorem negative_age_lands_in_lowest_bucket_witness :
    ((-1 : ℚ) < 0) ∧ groupe_age (some (-1)) = "0-9" :=
  ⟨by norm_num, negative_age_lands_in_lowest_bucket (-1) (by norm_num)⟩

/-! ### C8: the worked example of spec section 8 -/

/-- C8. On the three-row example relation, the global view yields total 3,
survivors 2 and rate 66.67; the by-sex view yields the male group with 1
survivor, 1 death, total 2 and the female group with 1 survivor, 0 deaths,
total 1; the by-age view realizes exactly the buckets 0-9, 20-29 and 40-49,
each with one passenger, surviving in the first two and not in the third
(rows listed in the produced ORDER BY order). -/
theorem example_relation_views :
    stats_generales exTable = ⟨3, some 2, some (6667 / 100)⟩
    ∧ survivants_par_sexe exTable
        = [⟨"female", 1, 0, 1⟩, ⟨"male", 1, 1, 2⟩]
    ∧ survivants_par_age exTable
        = [⟨"0-9", 1, 0, 1⟩, ⟨"20-29", 1, 0, 1⟩, ⟨"40-49", 0, 1, 1⟩] := by
  refine ⟨?_, by decide, by decide⟩
  show (⟨3, some 2, some (taux exTable)⟩ : GlobalStats) = _
  have h2 : taux exTable = 6667 / 100 := by
    show round2 ((sumSurvived exTable : ℚ) * 100 / (exTable.length : ℚ)) = 6667 / 100
    have hs : sumSurvived exTable = 2 := by decide
    have hl : exTable.length = 3 := by decide
    rw [hs, hl, round2]
    norm_num [round_eq]
  rw [h2]

/-! ### C5: the CASE expression is total and non-overlapping -/

/-- C5. Null ages map to `'Inconnu'` and only to it; over the nonnegative
ages, the nine numeric buckets are characterized by the pairwise-disjoint,
exhaustive intervals with bounds 0, 10, ..., 80, so every age in the domain
is assigned exactly one bucket. -/
theorem age_bucket_case_partitions :
    groupe_age none = "Inconnu"
    ∧ (∀ a : ℚ, groupe_age (some a) ≠ "Inconnu")
    ∧ ∀ a : ℚ, 0 ≤ a →
        ((groupe_age (some a) = "0-9" ↔ 0 ≤ a ∧ a < 10)
        ∧ (groupe_age (some a) = "10-19" ↔ 10 ≤ a ∧ a < 20)
        ∧ (groupe_age (some a) = "20-29" ↔ 20 ≤ a ∧ a < 30)
        ∧ (groupe_age (some a) = "30-39" ↔ 30 ≤ a ∧ a < 40)
        ∧ (groupe_age (some a) = "40-49" ↔ 40 ≤ a ∧ a < 50)
        ∧ (groupe_age (some a) = "50-59" ↔ 50 ≤ a ∧ a < 60)
        ∧ (groupe_age (some a) = "60-69" ↔ 60 ≤ a ∧ a < 70)
        ∧ (groupe_age (some a) = "70-79" ↔ 70 ≤ a ∧ a < 80)
        ∧ (groupe_age (some a) = "80+" ↔ 80 ≤ a)) := by
  refine ⟨rfl, groupe_age_some_ne_inconnu, ?_⟩
  intro a ha
  simp only [groupe_age]
  split_ifs with h1 h2 h3 h4 h5 h6 h7 h8 <;>
    refine ⟨?_, ?_, ?_, ?_, ?_, ?_, ?_, ?_, ?_⟩ <;>
    constructor <;>
    intro hx <;>
    first
      | rfl
      | exact absurd hx (by decide)
      | exact ⟨by linarith, by linarith⟩
      | linarith

/-- Witness for C5: age 25 is characterized by the 20-29 interval. -/
theorem age_bucket_case_partitions_witness :
    ((0 : ℚ) ≤ 25)
    ∧ (groupe_age (some 25) = "20-29" ↔ 20 ≤ (25 : ℚ) ∧ (25 : ℚ) < 30) :=
  ⟨by norm_num, (age_bucket_case_partitions.2.2 25 (by norm_num)).2.2.1⟩

/-! ### C2: ORDER BY on labels realizes the canonical bucket order -/

/-- The lexicographic comparison is total. -/
theorem charListLe_total :
    ∀ as bs : List Char, charListLe as bs = true ∨ charListLe bs as = true := by
  intro as
  induction as with
  | nil => intro bs; left; rfl
  | cons a as ih =>
    intro bs
    cases bs with
    | nil => right; rfl
    | cons b bs =>
      rcases lt_trichotomy a b with h | h | h
      · left
        simp [charListLe, h]
      · subst h
        rcases ih bs with h2 | h2
        · left
          simp [charListLe, lt_irrefl, h2]
        · right
          simp [charListLe, lt_irrefl, h2]
      · right
        simp [charListLe, h]

/-- The lexicographic comparison is transitive. -/
theorem charListLe_trans :
    ∀ as bs cs : List Char, charListLe as bs = true → charListLe bs cs = true →
      charListLe as cs = true := by
  intro as
  induction as with
  | nil => intro bs cs _ _; rfl
  | cons a as ih =>
    intro bs cs h1 h2
    cases bs with
    | nil => simp [charListLe] at h1
    | cons b bs =>
      cases cs with
      | nil => simp [charListLe] at h2
      | cons c cs =>
        by_cases hab : a < b
        · by_cases hbc : b < c
          · have hac : a < c := lt_trans hab hbc
            simp [charListLe, hac]
          · by_cases hcb : c < b
            · simp [charListLe, hbc, hcb] at h2
            · have hbceq : b = c := le_antisymm (not_lt.mp hcb) (not_lt.mp hbc)
              have hac : a < c := hbceq ▸ hab
              simp [charListLe, hac]
        · by_cases hba : b < a
          · simp [charListLe, hab, hba] at h1
          · have habeq : a = b := le_antisymm (not_lt.mp hba) (not_lt.mp hab)
            subst habeq
            simp only [charListLe, lt_irrefl, if_neg (lt_irrefl a), if_false] at h1
            by_cases hac : a < c
            · simp [charListLe, hac]
            · by_cases hca : c < a
              · simp [charListLe, hac, hca] at h2
              · have haceq : a = c := le_antisymm (not_lt.mp hca) (not_lt.mp hac)
                subst haceq
                simp only [charListLe, lt_irrefl, if_neg (lt_irrefl a), if_false] at h2 ⊢
                exact ih bs cs h1 h2

/-- On the ten bucket labels, the non-strict lexicographic order on distinct
labels implies the canonical-rank order. -/
theorem labels_le_ne_rank :
    ∀ a ∈ allBucketLabels, ∀ b ∈ allBucketLabels,
      strLe a b = true → a ≠ b → bucketRank a < bucketRank b := by
  decide

/-- C2. The lexicographic label order agrees pairwise with the canonical
bucket order (numeric lower bound ascending, `'Inconnu'` last), and
consequently the rows of the by-age view, produced by ORDER BY on the label
string, are in strictly increasing canonical rank for every relation. -/
theorem by_age_rows_canonically_ordered :
    List.Pairwise (fun a b => strLt a b = true ∧ bucketRank a < bucketRank b) allBucketLabels
    ∧ ∀ t : List Row,
        List.Pairwise (fun r1 r2 => bucketRank r1.groupe_age < bucketRank r2.groupe_age)
          (survivants_par_age t) := by
  constructor
  · decide
  · intro t
    haveI : IsTotal String (fun a b => strLe a b = true) :=
      ⟨fun a b => charListLe_total a.data b.data⟩
    haveI : IsTrans String (fun a b => strLe a b = true) :=
      ⟨fun a b c => charListLe_trans a.data b.data c.data⟩
    have hsorted : List.Sorted (fun a b => strLe a b = true)
        (List.insertionSort (fun a b => strLe a b = true) (groupKeys ageKey t)) :=
      List.sorted_insertionSort _ _
    have hnd := nodup_sortedKeys (fun a b => strLe a b = true) ageKey t
    have hpw := List.Pairwise.and hsorted hnd
    have hrank : List.Pairwise (fun a b => bucketRank a < bucketRank b)
        (List.insertionSort (fun a b => strLe a b = true) (groupKeys ageKey t)) := by
      refine hpw.imp_of_mem ?_
      intro a b hma hmb hab
      obtain ⟨ra, hra, rfl⟩ := of_mem_sortedKeys _ ageKey t a hma
      obtain ⟨rb, hrb, rfl⟩ := of_mem_sortedKeys _ ageKey t b hmb
      exact labels_le_ne_rank _ (groupe_age_mem_labels ra.age) _
        (groupe_age_mem_labels rb.age) hab.1 hab.2
    unfold survivants_par_age
    exact List.pairwise_map.mpr hrank

/-! ### C7: the unknown bucket is kept in the table, excluded from plots -/

/-- A second example relation containing a null-age row. -/
def exTable2 : List Row :=
  [⟨"male", none, 3, 0⟩, ⟨"female", some 22, 1, 1⟩]

/-- C7. Null-age rows are bucketed `'Inconnu'` and realize that bucket in the
by-age table, while the three plotted/ordered age-axis data sets (the age
chart data, the rate-by-age view, the heatmap data) never contain it. -/
theorem unknown_bucket_excluded_from_plots (t : List Row) :
    (∀ r ∈ t, r.age = none → groupe_age r.age = "Inconnu")
    ∧ ((∃ r ∈ t, r.age = none) →
        "Inconnu" ∈ (survivants_par_age t).map (fun row => row.groupe_age))
    ∧ (∀ row ∈ survivants_par_age_filtre t, row.groupe_age ≠ "Inconnu")
    ∧ (∀ row ∈ taux_survie_age t, row.groupe_age ≠ "Inconnu")
    ∧ (∀ row ∈ survivants_sexe_age_filtre t, row.groupe_age ≠ "Inconnu") := by
  refine ⟨?_, ?_, ?_, ?_, ?_⟩
  · intro r _ hnone
    rw [hnone]
    rfl
  · rintro ⟨r, hr, hnone⟩
    have hkey : ageKey r = "Inconnu" := by
      unfold ageKey
      rw [hnone]
      rfl
    have hmem := mem_sortedKeys (fun a b => strLe a b = true) ageKey t r hr
    rw [hkey] at hmem
    unfold survivants_par_age
    exact List.mem_map.mpr ⟨_, List.mem_map.mpr ⟨"Inconnu", hmem, rfl⟩, rfl⟩
  · intro row hrow
    have h := (List.mem_filter.mp hrow).2
    simpa using h
  · intro row hrow
    unfold taux_survie_age at hrow
    obtain ⟨b, hb, rfl⟩ := List.mem_map.mp hrow
    obtain ⟨r, hr, rfl⟩ := of_mem_sortedKeys _ ageKey _ b hb
    have h1 := List.mem_filter.mp hr
    obtain ⟨x, hx⟩ := Option.isSome_iff_exists.mp (by simpa using h1.2)
    show ageKey r ≠ "Inconnu"
    unfold ageKey
    rw [hx]
    exact groupe_age_some_ne_inconnu x
  · intro row hrow
    have h := (List.mem_filter.mp hrow).2
    simpa using h

/-- Witness for C7: the null-age row of the second example relation realizes
the `'Inconnu'` bucket in the by-age table. -/
theorem unknown_bucket_excluded_from_plots_witness :
    "Inconnu" ∈ (survivants_par_age exTable2).map (fun row => row.groupe_age) :=
  (unknown_bucket_excluded_from_plots exTable2).2.1
    ⟨⟨"male", none, 3, 0⟩, List.mem_cons_self _ _, rfl⟩

/-! ### C4: every reported rate is round(100 * survivors / total, 2) in [0, 100] -/

/-- For a nonempty group of 0/1-Survived rows, the rounded rate is
nonnegative, at most 100, and equal to ROUND(100 * survivors / total, 2)
with survivors counted by the CASE expression. -/
theorem taux_spec (g : List Row) (hne : g ≠ [])
    (h : ∀ r ∈ g, r.survived = 0 ∨ r.survived = 1) :
    0 ≤ taux g ∧ taux g ≤ 100
    ∧ taux g = round2 (100 * (nbSurvivants g : ℚ) / (g.length : ℚ)) := by
  have hlen : 0 < (g.length : ℚ) := by
    have : 0 < g.length := List.length_pos.mpr hne
    exact_mod_cast this
  have hs := sumSurvived_eq_nbSurvivants g h
  have hsle0 : nbSurvivants g ≤ g.length :=
    List.countP_le_length (fun r : Row => decide (r.survived = 1))
  have hsle : (nbSurvivants g : ℚ) ≤ (g.length : ℚ) := by exact_mod_cast hsle0
  have harg : (sumSurvived g : ℚ) * 100 / (g.length : ℚ)
      = 100 * (nbSurvivants g : ℚ) / (g.length : ℚ) := by
    rw [hs]
    push_cast
    ring
  have h0 : 0 ≤ (sumSurvived g : ℚ) * 100 / (g.length : ℚ) := by
    rw [harg]
    positivity
  have h100 : (sumSurvived g : ℚ) * 100 / (g.length : ℚ) ≤ 100 := by
    rw [harg, div_le_iff₀ hlen]
    nlinarith
  have hr0 : (0 : ℤ) ≤ round ((sumSurvived g : ℚ) * 100 / (g.length : ℚ) * 100) := by
    rw [round_eq]
    exact Int.le_floor.mpr (by push_cast; nlinarith)
  have hr1 : round ((sumSurvived g : ℚ) * 100 / (g.length : ℚ) * 100) ≤ 10000 := by
    have hlt : round ((sumSurvived g : ℚ) * 100 / (g.length : ℚ) * 100) < 10001 := by
      rw [round_eq]
      exact Int.floor_lt.mpr (by push_cast; nlinarith)
    omega
  refine ⟨?_, ?_, by rw [taux, harg]⟩
  · rw [taux, round2]
    exact div_nonneg (by exact_mod_cast hr0) (by norm_num)
  · rw [taux, round2, div_le_iff₀ (by norm_num : (0 : ℚ) < 100)]
    calc (round ((sumSurvived g : ℚ) * 100 / (g.length : ℚ) * 100) : ℚ)
        ≤ 10000 := by exact_mod_cast hr1
      _ = 100 * 100 := by norm_num

/-- C4. Under the 0/1-Survived precondition, every rate reported by the five
rate-bearing views (global stats, rate by sex, rate by age bucket, cross-tab,
by class) lies in [0, 100] and equals ROUND(100 * survivors / total, 2) for
its realized group, whose total is at least 1. -/
theorem rate_views_bounds (t : List Row)
    (h : ∀ r ∈ t, r.survived = 0 ∨ r.survived = 1) :
    (∀ x ∈ (stats_generales t).pourcentage_survie,
        0 ≤ x ∧ x ≤ 100
        ∧ x = round2 (100 * (nbSurvivants t : ℚ) / (t.length : ℚ))
        ∧ 1 ≤ t.length)
    ∧ (∀ row ∈ taux_survie_sexe t,
        0 ≤ row.taux_survie ∧ row.taux_survie ≤ 100
        ∧ row.taux_survie
            = round2 (100 * (nbSurvivants (groupOf (fun r => r.sex) t row.sex) : ℚ)
                / ((groupOf (fun r => r.sex) t row.sex).length : ℚ))
        ∧ 1 ≤ (groupOf (fun r => r.sex) t row.sex).length)
    ∧ (∀ row ∈ taux_survie_age t,
        0 ≤ row.taux_survie ∧ row.taux_survie ≤ 100
        ∧ row.taux_survie
            = round2 (100 * (nbSurvivants
                  (groupOf ageKey (t.filter (fun r => r.age.isSome)) row.groupe_age) : ℚ)
                / ((groupOf ageKey (t.filter (fun r => r.age.isSome)) row.groupe_age).length : ℚ))
        ∧ 1 ≤ (groupOf ageKey (t.filter (fun r => r.age.isSome)) row.groupe_age).length)
    ∧ (∀ row ∈ survivants_sexe_age t,
        0 ≤ row.taux_survie ∧ row.taux_survie ≤ 100
        ∧ row.taux_survie
            = round2 (100 * (nbSurvivants (groupOf sexeAgeKey t (row.sex, row.groupe_age)) : ℚ)
                / (row.total : ℚ))
        ∧ 1 ≤ row.total)
    ∧ (∀ row ∈ stats_classe t,
        0 ≤ row.pourcentage_survie ∧ row.pourcentage_survie ≤ 100
        ∧ row.pourcentage_survie
            = round2 (100 * (nbSurvivants (groupOf (fun r => r.pclass) t row.classe) : ℚ)
                / (row.total_passagers : ℚ))
        ∧ 1 ≤ row.total_passagers) := by
  refine ⟨?_, ?_, ?_, ?_, ?_⟩
  · intro x hx
    by_cases hemp : t.isEmpty
    · simp [stats_generales, hemp] at hx
    · have hne : t ≠ [] := by simpa [List.isEmpty_iff] using hemp
      have hx2 : x = taux t := by
        simp [stats_generales, hemp] at hx
        exact hx.symm
      obtain ⟨hb0, hb1, hb2⟩ := taux_spec t hne h
      rw [hx2]
      exact ⟨hb0, hb1, hb2, List.length_pos.mpr hne⟩
  · intro row hrow
    unfold taux_survie_sexe at hrow
    obtain ⟨s, hs, rfl⟩ := List.mem_map.mp hrow
    obtain ⟨r, hr, hk⟩ := List.mem_map.mp (List.mem_dedup.mp hs)
    have hne := groupOf_ne_nil (fun r => r.sex) t s r hr hk
    obtain ⟨hb0, hb1, hb2⟩ := taux_spec _ hne
      (fun x hx => h x (mem_of_mem_groupOf _ t s x hx))
    exact ⟨hb0, hb1, hb2, List.length_pos.mpr hne⟩
  · intro row hrow
    unfold taux_survie_age at hrow
    obtain ⟨b, hb, rfl⟩ := List.mem_map.mp hrow
    obtain ⟨r, hr, hk⟩ := of_mem_sortedKeys _ ageKey _ b hb
    have hne := groupOf_ne_nil ageKey (t.filter (fun r => r.age.isSome)) b r hr hk
    obtain ⟨hb0, hb1, hb2⟩ := taux_spec _ hne
      (fun x hx => h x ((List.mem_filter.mp (mem_of_mem_groupOf _ _ b x hx)).1))
    exact ⟨hb0, hb1, hb2, List.length_pos.mpr hne⟩
  · intro row hrow
    unfold survivants_sexe_age at hrow
    obtain ⟨k, hk, rfl⟩ := List.mem_map.mp hrow
    obtain ⟨r, hr, hkey⟩ := of_mem_sortedKeys _ sexeAgeKey t k hk
    have hne := groupOf_ne_nil sexeAgeKey t k r hr hkey
    obtain ⟨hb0, hb1, hb2⟩ := taux_spec _ hne
      (fun x hx => h x (mem_of_mem_groupOf _ t k x hx))
    exact ⟨hb0, hb1, hb2, List.length_pos.mpr hne⟩
  · intro row hrow
    unfold stats_classe at hrow
    obtain ⟨c, hc, rfl⟩ := List.mem_map.mp hrow
    obtain ⟨r, hr, hk⟩ := of_mem_sortedKeys _ (fun r => r.pclass) t c hc
    have hne := groupOf_ne_nil (fun r => r.pclass) t c r hr hk
    obtain ⟨hb0, hb1, hb2⟩ := taux_spec _ hne
      (fun x hx => h x (mem_of_mem_groupOf _ t c x hx))
    exact ⟨hb0, hb1, hb2, List.length_pos.mpr hne⟩

/-- Witness for C4: the global rate of the example relation. -/
theorem rate_views_bounds_witness :
    0 ≤ ((6667 : ℚ) / 100) ∧ ((6667 : ℚ) / 100) ≤ 100
    ∧ ((6667 : ℚ) / 100)
        = round2 (100 * (nbSurvivants exTable : ℚ) / (exTable.length : ℚ))
    ∧ 1 ≤ exTable.length := by
  have hmem : (6667 : ℚ) / 100 ∈ (stats_generales exTable).pourcentage_survie := by
    have hval : (stats_generales exTable).pourcentage_survie = some ((6667 : ℚ) / 100) := by
      show some (taux exTable) = _
      have hs : sumSurvived exTable = 2 := by decide
      have hl : exTable.length = 3 := by decide
      rw [taux, hs, hl, round2]
      norm_num [round_eq]
    rw [hval]
    rfl
  exact (rate_views_bounds exTable (by decide)).1 ((6667 : ℚ) / 100) hmem

/-! ### C6: global stats versus the by-sex view aggregated over sexes -/

/-- Counterexample to C6 as stated: on the empty raw relation (which
vacuously satisfies the 0/1-Survived precondition) the global SUM(Survived)
is NULL while the by-sex view has no rows, so the sum of its survivor counts
is 0; NULL is not 0. -/
theorem global_vs_by_sex_counterexample :
    ¬ ((stats_generales ([] : List Row)).total_survivants
        = some (((survivants_par_sexe ([] : List Row)).map
            (fun row => (row.nombre_survivants : Int))).sum)) := by
  decide

/-- C6 amended: for every nonempty raw relation whose Survived column is
0/1, the global total equals the sum of the per-sex totals and the global
survivor count equals the sum of the per-sex survivor counts. -/
theorem global_equals_by_sex_aggregate (t : List Row) (hne : t ≠ [])
    (h : ∀ r ∈ t, r.survived = 0 ∨ r.survived = 1) :
    (stats_generales t).total_passagers
        = ((survivants_par_sexe t).map (fun row => row.total)).sum
    ∧ (stats_generales t).total_survivants
        = some (((survivants_par_sexe t).map
            (fun row => (row.nombre_survivants : Int))).sum) := by
  have hnd := nodup_sortedKeys (fun a b => strLe a b = true) (fun r => r.sex) t
  have hcover : ∀ r ∈ t, r.sex ∈ List.insertionSort (fun a b => strLe a b = true)
      (groupKeys (fun r => r.sex) t) :=
    fun r hr => mem_sortedKeys _ _ t r hr
  constructor
  · show t.length = _
    unfold survivants_par_sexe
    rw [List.map_map]
    exact (sum_group_lengths (fun r => r.sex) _ hnd t hcover).symm
  · have hemp : t.isEmpty = false := by simpa using hne
    show (if t.isEmpty then none else some (sumSurvived t)) = _
    rw [hemp]
    simp only [Bool.false_eq_true, if_false, Option.some.injEq]
    rw [sumSurvived_eq_nbSurvivants t h]
    unfold survivants_par_sexe
    rw [List.map_map]
    have hnat := sum_group_countP (fun r => r.sex) (fun r => decide (r.survived = 1))
      _ hnd t hcover
    have hcast : ((List.insertionSort (fun a b => strLe a b = true)
          (groupKeys (fun r => r.sex) t)).map
        (fun s => (nbSurvivants (groupOf (fun r => r.sex) t s) : Int))).sum
        = ((List.insertionSort (fun a b => strLe a b = true)
            (groupKeys (fun r => r.sex) t)).map
          (fun s => nbSurvivants (groupOf (fun r => r.sex) t s))).sum := by
      rw [Nat.cast_list_sum, List.map_map]
      rfl
    calc (nbSurvivants t : Int)
        = ((List.insertionSort (fun a b => strLe a b = true)
            (groupKeys (fun r => r.sex) t)).map
          (fun s => nbSurvivants (groupOf (fun r => r.sex) t s))).sum := by
          exact_mod_cast hnat.symm
      _ = _ := by rw [← hcast]; rfl

/-- Witness for C6 at the example relation: total 3 = 1 + 2 and survivors
2 = 1 + 1 across the two sex groups. -/
theorem global_equals_by_sex_aggregate_witness :
    (stats_generales exTable).total_passagers
        = ((survivants_par_sexe exTable).map (fun row => row.total)).sum
    ∧ (stats_generales exTable).total_survivants
        = some (((survivants_par_sexe exTable).map
            (fun row => (row.nombre_survivants : Int))).sum) :=
  global_equals_by_sex_aggregate exTable (by decide) (by decide)

/-! ### C3: temporary-file lifetime in upload ingestion -/

/-- A CSV reader on which the ingestion query fails. -/
def failingReader : String → Except IngestError (List Row) :=
  fun _ => .error .queryFailed

/-- Counterexample to C3 as stated: on the path where the ingestion query
fails, the exception propagates before os.unlink, so the temporary file is
not deleted. -/
theorem temp_file_not_deleted_on_failure :
    (uploadIngest failingReader "upload.csv").2 = false := rfl

/-- C3 amended: the temporary file is deleted before the render proceeds
exactly when ingestion succeeds; on the failing path it is left behind. -/
theorem temp_file_deleted_iff_ingest_ok
    (readCsv : String → Except IngestError (List Row)) (f : String) :
    (uploadIngest readCsv f).2 = (readCsv f).toBool := by
  unfold uploadIngest
  cases readCsv f <;> rfl

/-! ### C9: upload mode with no file halts cleanly -/

/-- C9. When upload mode is selected and no file is provided, the render
stops with the informational prompt; no derived view is computed and no
failure outcome is produced. -/
theorem no_file_stops_cleanly (demoData : List Row)
    (readCsv : String → Except IngestError (List Row)) :
    runApp demoData readCsv (.upload none) = .stopped msgNoFile
    ∧ viewsOf (runApp demoData readCsv (.upload none)) = none :=
  ⟨rfl, rfl⟩

/-- Witness for C2: the by-age rows of the example relation are in strictly
increasing canonical rank. -/
theorem by_age_rows_canonically_ordered_witness :
    List.Pairwise (fun r1 r2 => bucketRank r1.groupe_age < bucketRank r2.groupe_age)
      (survivants_par_age exTable) :=
  by_age_rows_canonically_ordered.2 exTable

/-- Witness for the amended C3 at a failing reader. -/
theorem temp_file_deleted_iff_ingest_ok_witness :
    (uploadIngest failingReader "upload.csv").2 = (failingReader "upload.csv").toBool :=
  temp_file_deleted_iff_ingest_ok failingReader "upload.csv"

/-- Witness for C9 at a concrete demo relation and reader. -/
theorem no_file_stops_cleanly_witness :
    runApp exTable failingReader (.upload none) = .stopped msgNoFile
    ∧ viewsOf (runApp exTable failingReader (.upload none)) = none :=
  no_file_stops_cleanly exTable failingReader
